import Mathlib

/-!
Shallow embedding of the Job_Hunter lead-aggregation pipeline:
the scout sources (`core/agents/reddit_scout.py`, `core/agents/rss_scout.py`),
the qualifier (`core/agents/qualifier_agent.py`) and the orchestrating worker
(`core/worker.py`). External boundaries (reddit API, RSS fetches, the Gemini
backend together with `json.loads` on its text) enter as explicit parameters;
everything the repository's own code does with them is translated directly.
-/

/-- A standardized data structure for a potential job lead
(`core/agents/base_scout.py`, class `JobLead`). -/
structure JobLead where
  id : String
  title : String
  body : String
  url : String
  source : String
deriving DecidableEq, Repr

/-- Fields of a praw `Submission` object that this codebase touches.
`RedditScout.find_leads` collects these raw praw model objects; note a
Submission carries `selftext`, not `body`, and has no `source` field. -/
structure Submission where
  id : String
  title : String
  selftext : String
  url : String
deriving DecidableEq, Repr

/-- Outcome of scanning one subreddit inside `RedditScout.find_leads`: either an
exception (`prawcore.exceptions.Redirect` / `PrawcoreException` / any other, all
caught, logged and skipped), or the submissions `subreddit.new(limit=...)`
yielded in fetch order. -/
abbrev SubredditFetch := Except Unit (List Submission)

/-- Inner loop of `RedditScout.find_leads` over one subreddit's submissions,
threading the `seen_post_ids` set: a submission whose id was already seen is
skipped, otherwise it is appended and its id recorded. -/
def scanPosts : List Submission → List String → List Submission × List String
  | [], seen => ([], seen)
  | s :: rest, seen =>
    if s.id ∈ seen then scanPosts rest seen
    else
      let p := scanPosts rest (s.id :: seen)
      (s :: p.1, p.2)

/-- Outer loop of `RedditScout.find_leads` over the configured subreddits,
accumulating submissions and the shared `seen_post_ids` set; a subreddit whose
fetch raised is skipped. -/
def scanSubreddits : List SubredditFetch → List String → List Submission
  | [], _ => []
  | Except.error _ :: rest, seen => scanSubreddits rest seen
  | Except.ok posts :: rest, seen =>
    let p := scanPosts posts seen
    p.1 ++ scanSubreddits rest p.2

/-- `RedditScout.find_leads` (`core/agents/reddit_scout.py`): returns `[]` when
the praw client was not set up (missing credentials or failed auth), otherwise
the deduplicated submissions across all configured subreddits. The elements are
raw `Submission` objects appended unchanged — no conversion to `JobLead`
happens, despite the `BaseScout.find_leads` contract documenting
`List[JobLead]`. -/
def RedditScout.find_leads (clientOk : Bool) (fetches : List SubredditFetch) :
    List Submission :=
  if !clientOk then [] else scanSubreddits fetches []

/-- One element of a feedparser entry's `content` list (`entry.content[0]` is
read with `.get("value", "")`). -/
structure ContentItem where
  value : Option String
deriving Repr

/-- Fields of a feedparser entry that `RSSScout.find_leads` touches. `link` and
`title` are read as attributes; `id`, `summary` and `content` through `.get`. -/
structure FeedEntry where
  id : Option String
  link : String
  title : String
  summary : Option String
  content : Option (List ContentItem)
deriving Repr

/-- One configured feed as `feedparser.parse` returns it: the feed URL, the
`bozo` malformed-feed flag (only logged, processing continues) and the entries. -/
structure Feed where
  url : String
  bozo : Bool
  entries : List FeedEntry
deriving Repr

/-- Body extraction in `RSSScout.find_leads`: `entry.get("summary", "")`, and
when that is falsy and `entry.get("content")` is a truthy (non-empty) list,
`entry.content[0].get("value", "")`. -/
def entryBody (e : FeedEntry) : String :=
  let body := e.summary.getD ""
  if body = "" then
    match e.content with
    | some (c :: _) => c.value.getD ""
    | _ => ""
  else body

/-- Simplified `urlparse(url).hostname`: the authority component between
`"://"` and the next `/`, `?` or `#`, userinfo and port stripped, lowercased;
`none` when the URL has no `"://"` (no netloc). -/
def hostnamePart (u : String) : Option String :=
  match u.splitOn "://" with
  | _ :: rest0 :: _ =>
    let auth := (rest0.splitOn "/").headD rest0
    let auth := (auth.splitOn "?").headD auth
    let auth := (auth.splitOn "#").headD auth
    let auth := (auth.splitOn "@").getLastD auth
    let host := (auth.splitOn ":").headD auth
    some host.toLower
  | _ => none

/-- `source_name = urlparse(feed_url).hostname or feed_url`: the hostname when
it is truthy, otherwise the feed URL itself. -/
def sourceName (feedUrl : String) : String :=
  match hostnamePart feedUrl with
  | some h => if h = "" then feedUrl else h
  | none => feedUrl

/-- The `JobLead` constructed for one feed entry in `RSSScout.find_leads`:
`id=entry.get("id", entry.link)`, body from summary/content, `url=entry.link`. -/
def mkRssLead (source : String) (e : FeedEntry) : JobLead :=
  { id := e.id.getD e.link
    title := e.title
    body := entryBody e
    url := e.link
    source := source }

/-- Inner loop of `RSSScout.find_leads` over one feed's entries, threading the
`seen_lead_urls` set (shared across feeds): an entry whose link was already
seen is skipped, otherwise its lead is appended and the link recorded. -/
def scanEntries (source : String) :
    List FeedEntry → List String → List JobLead × List String
  | [], seen => ([], seen)
  | e :: rest, seen =>
    if e.link ∈ seen then scanEntries source rest seen
    else
      let p := scanEntries source rest (e.link :: seen)
      (mkRssLead source e :: p.1, p.2)

/-- Outer loop of `RSSScout.find_leads` over the configured feeds, threading
the shared `seen_lead_urls` set. -/
def scanFeeds : List Feed → List String → List JobLead
  | [], _ => []
  | f :: rest, seen =>
    let p := scanEntries (sourceName f.url) f.entries seen
    p.1 ++ scanFeeds rest p.2

/-- `RSSScout.find_leads` (`core/agents/rss_scout.py`): `[]` when no feeds are
configured, otherwise the deduplicated leads across all configured feeds. -/
def RSSScout.find_leads (feeds : List Feed) : List JobLead :=
  if feeds.isEmpty then [] else scanFeeds feeds []

/-- Python `str.isspace` characters relevant to `str.strip()` with no
arguments (ASCII whitespace suffices for the bodies this code strips). -/
def pyIsSpace (c : Char) : Bool :=
  c = ' ' || c = '\t' || c = '\n' || c = '\r' || c = '\x0b' || c = '\x0c'

/-- Python falsiness of `s.strip()`: the string is empty or whitespace-only. -/
def strippedEmpty (s : String) : Bool :=
  s.toList.all pyIsSpace

/-- Values produced by `json.loads` (JSON numbers restricted to integers,
which covers every field this agent reads). -/
inductive JsonVal where
  | null
  | bool (b : Bool)
  | num (n : Int)
  | str (s : String)
  | arr (xs : List JsonVal)
  | obj (kvs : List (String × JsonVal))

/-- Whether the first list is a prefix of the second (Boolean). -/
def charsStartWith : List Char → List Char → Bool
  | [], _ => true
  | _ :: _, [] => false
  | b :: bs, a :: as => a = b && charsStartWith bs as

/-- Whether the first list occurs as a contiguous run inside the second
(Python substring containment `k in s`). -/
def charsInside (needle : List Char) : List Char → Bool
  | [] => needle.isEmpty
  | a :: t => charsStartWith needle (a :: t) || charsInside needle t

/-- Python membership test `key in llm_data` on an arbitrary `json.loads`
result: dict checks keys, list checks element equality, str checks substring;
any other value raises `TypeError` (modelled as `Except.error`). -/
def pyContainsKey (k : String) (v : JsonVal) : Except Unit Bool :=
  match v with
  | .obj kvs => .ok (kvs.any (fun kv => kv.1 = k))
  | .arr xs => .ok (xs.any (fun x => match x with | .str s => s = k | _ => false))
  | .str s => .ok (charsInside k.toList s.toList)
  | _ => .error ()

/-- The `required_keys` list checked by `analyze_and_qualify`. -/
def requiredKeys : List String := ["score", "justification", "cover_letter_draft"]

/-- Python `all(key in llm_data for key in keys)`: short-circuiting conjunction
of membership tests, propagating a raised `TypeError`. -/
def allKeysPresent (v : JsonVal) : List String → Except Unit Bool
  | [] => .ok true
  | k :: rest =>
    match pyContainsKey k v with
    | .error e => .error e
    | .ok false => .ok false
    | .ok true => allKeysPresent v rest

/-- Python `llm_data.get(key, default)`: key lookup with default on a dict;
on any non-dict value the attribute access raises `AttributeError`
(modelled as `Except.error`). -/
def pyDictGet (v : JsonVal) (k : String) (dflt : JsonVal) : Except Unit JsonVal :=
  match v with
  | .obj kvs =>
    match kvs.find? (fun kv => kv.1 = k) with
    | some kv => .ok kv.2
    | none => .ok dflt
  | _ => .error ()

/-- The dictionary assembled by `QualifierAgent.analyze_and_qualify` on
success (`core/agents/qualifier_agent.py`). The scoring fields hold whatever
JSON values the model returned: no type or range validation is applied. -/
structure AnalyzedJob where
  id : String
  title : String
  url : String
  source : String
  score : JsonVal
  justification : JsonVal
  cover_letter : JsonVal
  company_name : JsonVal
  contact_info : JsonVal

/-- Combined outcome of the `generate_content` call and `json.loads` on its
text — the external model boundary. `apiError` is a `GoogleAPICallError`;
`otherError` any other exception escaping the call; `emptyText` a falsy
`response.text`; `invalid` a text `json.loads` rejects; `parsed v` a
successful parse yielding `v`. -/
inductive ModelResponse where
  | apiError
  | otherError
  | emptyText
  | invalid
  | parsed (v : JsonVal)

/-- The resume section of the prompt: the resume wrapped in markers when
`resume_content and resume_content.strip()` is truthy, else a fixed marker. -/
def resumeSection (resume : String) : String :=
  if strippedEmpty resume then "No resume provided."
  else "Here is my resume for context:\n\n---\n" ++ resume ++ "\n---"

/-- `QualifierAgent._create_prompt`: the full prompt text (the f-string of the
source with `.strip()` applied). -/
def create_prompt (job_title job_body resume : String) (keywords : List String) :
    String :=
  "Analyze the following job posting based on my skills and resume.\n\n"
  ++ "**My Key Skills/Interests:**\n" ++ String.intercalate ", " keywords
  ++ "\n\n**My Resume/CV:**\n" ++ resumeSection resume
  ++ "\n\n**Job Posting to Analyze:**\nTitle: " ++ job_title
  ++ "\nBody:\n" ++ job_body
  ++ "\n\n---\n**Your Task:**\n"
  ++ "Based on all the information, evaluate the job posting\x27s relevance to my profile.\n"
  ++ "Provide a relevance score from 0 (not relevant) to 100 (perfect match).\n"
  ++ "Write a brief justification for your score.\n"
  ++ "Draft a concise, professional, and tailored cover letter.\n"
  ++ "Extract the company name and any contact information if available.\n\n"
  ++ "Return a single, valid JSON object with the following exact structure:\n"
  ++ "\x7b\n  \"score\": <integer, 0-100>,\n"
  ++ "  \"justification\": \"<string, your reasoning for the score>\",\n"
  ++ "  \"cover_letter_draft\": \"<string, the drafted cover letter text>\",\n"
  ++ "  \"extracted_company_name\": \"<string or null, the company name if found>\",\n"
  ++ "  \"extracted_contact_info\": \"<string or null, email or contact person if found>\"\n\x7d"

/-- Assembly of the result dict: five `llm_data.get` reads (each raising on a
non-dict) followed by the record copying the lead identity fields. -/
def buildAnalyzedJob (lead : JobLead) (v : JsonVal) : Except Unit AnalyzedJob := do
  let score ← pyDictGet v "score" (.num 0)
  let just ← pyDictGet v "justification" (.str "N/A")
  let cover ← pyDictGet v "cover_letter_draft" (.str "")
  let comp ← pyDictGet v "extracted_company_name" .null
  let contact ← pyDictGet v "extracted_contact_info" .null
  pure { id := lead.id, title := lead.title, url := lead.url,
         source := lead.source, score := score, justification := just,
         cover_letter := cover, company_name := comp, contact_info := contact }

/-- The `try` block of `analyze_and_qualify` from the `generate_content` call
on: every failure (API error, other exception, empty text, parse failure,
missing required keys, `TypeError`/`AttributeError` on a non-dict value) is
caught and yields `none`. -/
def handleResponse (lead : JobLead) (resp : ModelResponse) : Option AnalyzedJob :=
  match resp with
  | .apiError => none
  | .otherError => none
  | .emptyText => none
  | .invalid => none
  | .parsed v =>
    match allKeysPresent v requiredKeys with
    | .error _ => none
    | .ok false => none
    | .ok true =>
      match buildAnalyzedJob lead v with
      | .error _ => none
      | .ok job => some job

/-- `QualifierAgent.analyze_and_qualify`: result plus the list of prompts sent
to the model backend (`[]` = zero backend calls). `modelInit` is whether
`self.model` was set by `__init__`; `resp` is what the backend and `json.loads`
yield for this call. -/
def analyze_and_qualify (modelInit : Bool) (lead : JobLead) (resume : String)
    (keywords : List String) (resp : ModelResponse) :
    Option AnalyzedJob × List String :=
  if modelInit = false then (none, [])
  else if strippedEmpty lead.body then (none, [])
  else (handleResponse lead resp,
        [create_prompt lead.title lead.body resume keywords])

/-- One signal emission of the worker (`core/worker.py`): `progress_updated`,
`status_updated`, `job_found`, `error_occurred` or `finished`. -/
inductive Event where
  | progress (p : Nat)
  | status (s : String)
  | jobFound (job : AnalyzedJob)
  | errorSig (msg : String)
  | finished

/-- The worker state shared across threads: the single `_is_running` flag. -/
structure WorkerState where
  isRunning : Bool
deriving DecidableEq, Repr

/-- `Worker.stop`: sets the cooperative cancellation flag and does nothing
else; the flag is only observed at the `run_scan` checkpoints, so an in-flight
Source or Qualifier call is never interrupted. -/
def Worker.stop (s : WorkerState) : WorkerState :=
  { s with isRunning := false }

/-- Value the `k`-th sequential read of `_is_running` observes during one run:
`run_scan` sets the flag true at entry and only `stop()` clears it, so reads
are true up to the read index at which the stop landed (`none` = `stop()` was
never called during the run). -/
def flagAt (stopAt : Option Nat) (k : Nat) : Bool :=
  match stopAt with
  | none => true
  | some j => decide (k < j)

/-- One configured scout as the orchestrator sees it: its class name and the
leads its `find_leads()` call returns (both scouts catch their own errors, so
`find_leads` returns a list and never raises). -/
structure ScoutRun where
  name : String
  leads : List JobLead
deriving DecidableEq, Repr

/-- Outcome of one `analyze_and_qualify` call as the orchestrator sees it:
either a returned value (`some`/`none`), or an exception escaping the call
(e.g. the `AttributeError` raised when a raw reddit `Submission` lacking
`.body` reaches the qualifier). -/
inductive QualifyOutcome where
  | result (r : Option AnalyzedJob)
  | raises (msg : String)

/-- Whether a `QualifyOutcome` is a completed call (no exception). -/
def QualifyOutcome.isResult : QualifyOutcome → Bool
  | .result _ => true
  | .raises _ => false

/-- The events of `run_scan`'s `finally` block: cancellation or completion
status, `progress(100)`, `finished`. -/
def finallyEvents (cancelled : Bool) : List Event :=
  [Event.status (if cancelled then "Scan cancelled." else "Scan complete."),
   Event.progress 100, Event.finished]

/-- `progress = int(((i + 1) / total_leads) * 100)`, modelled with exact
natural arithmetic; the Python float computation agrees on the properties the
claims use (monotone in `i`, between 0 and 100, exactly 100 at
`i + 1 = total`). -/
def progressVal (i total : Nat) : Nat :=
  ((i + 1) * 100) / total

/-- The status message emitted before analyzing lead `i` (`lead.title[:50]`). -/
def analyzeMsg (i total : Nat) (lead : JobLead) : String :=
  "Analyzing lead " ++ toString (i + 1) ++ "/" ++ toString total ++ ": "
    ++ lead.title.take 50 ++ "..."

/-- Step 2 of `run_scan`: the loop over scouts. Read `k` of `_is_running`
guards scout `k`; a false read raises `InterruptedError` (events stop, `none`
signals cancellation), otherwise the scout's status message is emitted and its
leads extend the accumulator. -/
def scoutPhase (stopAt : Option Nat) : List ScoutRun → Nat → List Event × Option (List JobLead)
  | [], _ => ([], some [])
  | sc :: rest, k =>
    if flagAt stopAt k then
      let p := scoutPhase stopAt rest (k + 1)
      (Event.status ("Asking " ++ sc.name ++ " for leads...") :: p.1,
       p.2.map (fun ls => sc.leads ++ ls))
    else ([], none)

/-- The `job_found` emission for one analysis result. -/
def jobEvents : Option AnalyzedJob → List Event
  | some job => [Event.jobFound job]
  | none => []

/-- How the step-3 loop of `run_scan` ended: ran to completion, broke on a
false `_is_running` read (`scan_cancelled = True`), or an exception escaped a
qualifier call into the outer `except Exception` handler. -/
inductive LoopEnd where
  | completed
  | cancelled
  | errored

/-- Whether this loop end sets `scan_cancelled` for the `finally` block. -/
def LoopEnd.cancelledFlag : LoopEnd → Bool
  | .cancelled => true
  | _ => false

/-- Step 3 of `run_scan`: iterate the merged leads. The read guarding lead `i`
has index `base + i` (`base` = number of scouts + 1, counting the per-scout
reads and the post-loop read). A false read breaks with `scan_cancelled`; a
raising qualifier call emits `error_occurred` and ends the loop; otherwise the
status message, the optional `job_found` and the `progress` value are emitted
and the loop advances. -/
def analysisLoop (stopAt : Option Nat) (base total : Nat)
    (qualify : Nat → JobLead → QualifyOutcome) :
    List JobLead → Nat → List Event × LoopEnd
  | [], _ => ([], .completed)
  | lead :: rest, i =>
    if flagAt stopAt (base + i) then
      match qualify i lead with
      | .raises msg =>
        ([Event.status (analyzeMsg i total lead),
          Event.errorSig ("An error occurred during the scan: " ++ msg)],
         .errored)
      | .result r =>
        let p := analysisLoop stopAt base total qualify rest (i + 1)
        (Event.status (analyzeMsg i total lead)
           :: (jobEvents r ++ Event.progress (progressVal i total) :: p.1),
         p.2)
    else ([], .cancelled)

/-- The merged lead list: concatenation of every scout's results in configured
order (`all_leads.extend(scout.find_leads())`). -/
def mergedLeads (scouts : List ScoutRun) : List JobLead :=
  (scouts.map ScoutRun.leads).flatten

/-- Continuation of `run_scan` after the scout loop: the post-loop
`_is_running` read (index `n` = number of scouts), the zero-leads early
return — whose `progress(100)` and `finished` are followed by the `finally`
block, because `return` still runs `finally` — and otherwise the analysis
loop followed by the `finally` block. -/
def afterScouts (stopAt : Option Nat) (n : Nat)
    (qualify : Nat → JobLead → QualifyOutcome) (sevs : List Event) :
    Option (List JobLead) → List Event
  | none => sevs ++ finallyEvents true
  | some allLeads =>
    if !flagAt stopAt n then sevs ++ finallyEvents true
    else if allLeads.isEmpty then
      sevs ++ (Event.status "No new job leads found." :: Event.progress 100
        :: Event.finished :: finallyEvents false)
    else
      sevs ++ (analysisLoop stopAt (n + 1) allLeads.length qualify allLeads 0).1
        ++ finallyEvents
          (analysisLoop stopAt (n + 1) allLeads.length qualify allLeads 0).2.cancelledFlag

/-- Steps 2–3 of `run_scan` from after agent initialization, plus the
`finally` block. -/
def scoutAndAnalyze (stopAt : Option Nat) (scouts : List ScoutRun)
    (qualify : Nat → JobLead → QualifyOutcome) : List Event :=
  afterScouts stopAt scouts.length qualify (scoutPhase stopAt scouts 0).1
    (scoutPhase stopAt scouts 0).2

/-- The `RuntimeError` message when no scouts were initialized, as emitted
through `error_occurred`. -/
def noScoutsMsg : String :=
  "An error occurred during the scan: No valid scouts were initialized. Check config.py and logs."

/-- Events of one accepted run: the opening status and `progress(0)`, agent
initialization, then either the no-scouts `RuntimeError` path or the scan. -/
def runEvents (stopAt : Option Nat) (scouts : List ScoutRun)
    (qualify : Nat → JobLead → QualifyOutcome) : List Event :=
  Event.status "Starting scan..." :: Event.progress 0
    :: Event.status "Initializing agents..."
    :: (if scouts.isEmpty then Event.errorSig noScoutsMsg :: finallyEvents false
        else Event.status "Searching for job leads from all sources..."
          :: scoutAndAnalyze stopAt scouts qualify)

/-- `Worker.run_scan`: the emitted signal sequence and the final `_is_running`
value. `alreadyRunning` is the flag at entry (a second `run()` while running
is rejected with only an error signal, leaving the flag untouched); `stopAt`
is the read index from which `_is_running` is observed false; `scouts` are the
scouts that initialized; `qualify` gives each qualifier call's outcome. -/
def runScan (alreadyRunning : Bool) (stopAt : Option Nat)
    (scouts : List ScoutRun) (qualify : Nat → JobLead → QualifyOutcome) :
    List Event × Bool :=
  if alreadyRunning then
    ([Event.errorSig "A scan is already in progress."], alreadyRunning)
  else
    (runEvents stopAt scouts qualify, false)

/-- Whether an event is the `finished` signal. -/
def isFinishedEv : Event → Bool
  | .finished => true
  | _ => false

/-- Whether an event is a `job_found` (result) emission. -/
def isJobFoundEv : Event → Bool
  | .jobFound _ => true
  | _ => false

/-- Number of `finished` emissions in an event trace. -/
def countFinished (evs : List Event) : Nat :=
  (evs.filter isFinishedEv).length

/-- Number of `job_found` (result) emissions in an event trace. -/
def countJobFound (evs : List Event) : Nat :=
  (evs.filter isJobFoundEv).length

/-- The `progress_updated` values of an event trace, in emission order. -/
def progressValues (evs : List Event) : List Nat :=
  evs.filterMap (fun e => match e with | .progress p => some p | _ => none)

/-- Whether a qualification score value is an integer in the range 0–100, the
property the spec asserts of every emitted result. -/
def scoreInRange : JsonVal → Bool
  | .num n => decide (0 ≤ n) && decide (n ≤ 100)
  | _ => false

/-- Sample lead for concrete runs. -/
def wLead1 : JobLead := ⟨"1", "t1", "b1", "u1", "s"⟩

/-- Sample lead for concrete runs. -/
def wLead2 : JobLead := ⟨"2", "t2", "b2", "u2", "s"⟩

/-- Sample lead for concrete runs. -/
def wLead3 : JobLead := ⟨"3", "t3", "b3", "u3", "s"⟩

/-- A single configured scout yielding three merged leads. -/
def wScouts : List ScoutRun := [⟨"RSSScout", [wLead1, wLead2, wLead3]⟩]

/-- A qualifier behaviour whose calls always complete (returning no result). -/
def wQualify : Nat → JobLead → QualifyOutcome := fun _ _ => .result none

/-- A submission as the reddit API would yield it. -/
def sampleSubmission : Submission :=
  ⟨"abc123", "Hiring devs", "need help", "https://reddit.com/abc123"⟩

/-- A lead whose body is whitespace-only. -/
def wsLead : JobLead := ⟨"i", "t", " \t ", "u", "s"⟩

/-- A lead with a non-empty body. -/
def wGoodLead : JobLead := ⟨"id1", "Title", "We are hiring", "https://x/1", "src"⟩

/-- A well-formed model response missing the required `score` field. -/
def missingScoreResponse : JsonVal :=
  .obj [("justification", .str "j"), ("cover_letter_draft", .str "c")]

/-- A model response with all required fields but an out-of-range score. -/
def badScoreResponse : JsonVal :=
  .obj [("score", .num 150), ("justification", .str "fits"),
        ("cover_letter_draft", .str "Dear")]

/-- The result dict assembled from `badScoreResponse` for `wGoodLead`. -/
def wBadJob : AnalyzedJob :=
  { id := "id1", title := "Title", url := "https://x/1", source := "src",
    score := .num 150, justification := .str "fits",
    cover_letter := .str "Dear", company_name := .null, contact_info := .null }

/-- A feed entry carrying no id field. -/
def wEntry : FeedEntry := ⟨none, "https://ex.com/1", "T1", some "sum", none⟩

/-- The value `pyDictGet` yields on a dict: the first binding of the key, or
the default. -/
def objGet (kvs : List (String × JsonVal)) (k : String) (dflt : JsonVal) : JsonVal :=
  match kvs.find? (fun kv => kv.1 = k) with
  | some kv => kv.2
  | none => dflt

/-- The first component of an accepted call with an initialized model reduces
to the body check followed by response handling. -/
theorem aq_true_fst (lead : JobLead) (resume : String) (keywords : List String)
    (resp : ModelResponse) :
    (analyze_and_qualify true lead resume keywords resp).1
      = if strippedEmpty lead.body then none else handleResponse lead resp := by
  unfold analyze_and_qualify
  by_cases hb : strippedEmpty lead.body <;> simp [hb]

/-- A parsed response that does not pass the required-keys check is rejected. -/
theorem handleResponse_missing_keys (lead : JobLead) (v : JsonVal)
    (h : allKeysPresent v requiredKeys ≠ Except.ok true) :
    handleResponse lead (ModelResponse.parsed v) = none := by
  have hr : handleResponse lead (ModelResponse.parsed v) =
      match allKeysPresent v requiredKeys with
      | Except.error _ => none
      | Except.ok false => none
      | Except.ok true =>
        match buildAnalyzedJob lead v with
        | Except.error _ => none
        | Except.ok job => some job := rfl
  rw [hr]
  split
  · rfl
  · rfl
  · rename_i heq
    exact absurd heq h

/-- C1. The claim states the `finished` signal is emitted exactly once per
run; on the zero-leads path the code emits it twice, because the early
`return` at the end of the zero-leads branch still runs the `finally` block,
which emits `progress(100)` and `finished` a second time. Evaluated here at a
run whose single scout returns no leads. -/
theorem finished_twice_on_zero_leads :
    countFinished (runScan false none [⟨"RSSScout", []⟩] wQualify).1 = 2 := by
  rfl

/-- C2. `RedditScout.find_leads` hands back the raw praw `Submission` objects
unchanged — the type `Submission` (id/title/selftext/url, no `body`, no
`source`) is what reaches the orchestrator, not the standardized `JobLead`
record the claim (and the `BaseScout` contract) describes. -/
theorem reddit_returns_raw_submissions :
    RedditScout.find_leads true [Except.ok [sampleSubmission]]
      = [sampleSubmission] := by
  rfl

/-- C5. A `run_scan` request while `_is_running` is set is rejected with only
the explicit already-running error signal — no progress, status, result or
completion event — and leaves the flag (the in-flight run's state) unchanged. -/
theorem second_run_rejected (stopAt : Option Nat) (scouts : List ScoutRun)
    (qualify : Nat → JobLead → QualifyOutcome) :
    runScan true stopAt scouts qualify
      = ([Event.errorSig "A scan is already in progress."], true) := by
  rfl

/-- C6. A lead whose body is empty or whitespace-only yields `none` with zero
backend calls, and so does any call when the qualifier failed to initialize
(`self.model` unset), independently of the lead and the response. -/
theorem qualifier_short_circuit (modelInit : Bool) (lead : JobLead)
    (resume : String) (keywords : List String) (resp : ModelResponse) :
    (strippedEmpty lead.body = true →
      analyze_and_qualify modelInit lead resume keywords resp = (none, [])) ∧
    analyze_and_qualify false lead resume keywords resp = (none, []) := by
  constructor
  · intro h
    cases modelInit
    · rfl
    · unfold analyze_and_qualify
      simp [h]
  · rfl

/-- C6 witness: a whitespace-only body short-circuits a fully initialized
qualifier before any backend call. -/
theorem qualifier_short_circuit_witness :
    analyze_and_qualify true wsLead "resume" ["Python"] ModelResponse.apiError
      = (none, []) :=
  (qualifier_short_circuit true wsLead "resume" ["Python"]
    ModelResponse.apiError).1 (by decide)

/-- C10. In `RSSScout.find_leads`, an entry with no id field yields a lead
whose id is the entry's link, so id and url coincide for such leads. -/
theorem rss_id_defaults_to_link (src : String) (e : FeedEntry)
    (h : e.id = none) :
    (mkRssLead src e).id = e.link ∧ (mkRssLead src e).id = (mkRssLead src e).url := by
  simp [mkRssLead, h]

/-- C10 witness: a concrete id-less entry. -/
theorem rss_id_defaults_to_link_witness :
    (mkRssLead "ex.com" wEntry).id = wEntry.link ∧
    (mkRssLead "ex.com" wEntry).id = (mkRssLead "ex.com" wEntry).url :=
  rss_id_defaults_to_link "ex.com" wEntry rfl

/-- C7. With an initialized qualifier: a response that parses as JSON but
does not pass the required-keys check (`score`, `justification`,
`cover_letter_draft` — including every non-dict JSON value, where the check
raises and is caught), a response that is not valid JSON, an empty response,
a backend API error and any other exception from the call all yield `none`;
the function is total, so no exception reaches the caller. -/
theorem qualifier_fails_closed (lead : JobLead) (resume : String)
    (keywords : List String) :
    (∀ v, allKeysPresent v requiredKeys ≠ Except.ok true →
      (analyze_and_qualify true lead resume keywords (ModelResponse.parsed v)).1 = none) ∧
    (analyze_and_qualify true lead resume keywords ModelResponse.invalid).1 = none ∧
    (analyze_and_qualify true lead resume keywords ModelResponse.emptyText).1 = none ∧
    (analyze_and_qualify true lead resume keywords ModelResponse.apiError).1 = none ∧
    (analyze_and_qualify true lead resume keywords ModelResponse.otherError).1 = none := by
  refine ⟨?_, ?_, ?_, ?_, ?_⟩
  · intro v h
    rw [aq_true_fst]
    split
    · rfl
    · exact handleResponse_missing_keys lead v h
  all_goals rw [aq_true_fst]; split <;> rfl

/-- C7 witness: a well-formed response missing `score` is rejected by a fully
initialized qualifier on a lead with a non-empty body. -/
theorem qualifier_fails_closed_witness :
    (analyze_and_qualify true wGoodLead "r" ["k"]
      (ModelResponse.parsed missingScoreResponse)).1 = none :=
  (qualifier_fails_closed wGoodLead "r" ["k"]).1 missingScoreResponse (by
    have hak : allKeysPresent missingScoreResponse requiredKeys
        = Except.ok false := rfl
    rw [hak]
    simp)

/-- C8 counterexample: the model response `{score: 150, ...}` passes the
presence-only validation, and the returned result carries score 150 — not an
integer in 0–100 — so the claim fails as stated. -/
theorem score_range_cex :
    ((analyze_and_qualify true wGoodLead "r" ["k"]
        (ModelResponse.parsed badScoreResponse)).1.map
      (fun job => scoreInRange job.score)) = some false := by
  rfl

/-- The score recorded in a successfully built result is exactly the
`llm_data.get("score", 0)` value. -/
theorem pyDictGet_obj (kvs : List (String × JsonVal)) (k : String)
    (dflt : JsonVal) :
    pyDictGet (JsonVal.obj kvs) k dflt = Except.ok (objGet kvs k dflt) := by
  have h1 : pyDictGet (JsonVal.obj kvs) k dflt =
      match List.find? (fun kv => decide (kv.1 = k)) kvs with
      | some kv => Except.ok kv.2
      | none => Except.ok dflt := rfl
  have h2 : objGet kvs k dflt =
      match List.find? (fun kv => decide (kv.1 = k)) kvs with
      | some kv => kv.2
      | none => dflt := rfl
  rw [h1, h2]
  cases List.find? (fun kv => decide (kv.1 = k)) kvs <;> rfl

/-- On a dict, the result assembly always succeeds and copies the five `get`
values together with the lead identity fields. -/
theorem buildAnalyzedJob_obj (lead : JobLead) (kvs : List (String × JsonVal)) :
    buildAnalyzedJob lead (JsonVal.obj kvs) = Except.ok
      { id := lead.id, title := lead.title, url := lead.url,
        source := lead.source,
        score := objGet kvs "score" (JsonVal.num 0),
        justification := objGet kvs "justification" (JsonVal.str "N/A"),
        cover_letter := objGet kvs "cover_letter_draft" (JsonVal.str ""),
        company_name := objGet kvs "extracted_company_name" JsonVal.null,
        contact_info := objGet kvs "extracted_contact_info" JsonVal.null } := by
  simp [buildAnalyzedJob, pyDictGet_obj, Bind.bind, Except.bind]
  rfl

theorem buildAnalyzedJob_score (lead : JobLead) (v : JsonVal) (job : AnalyzedJob)
    (h : buildAnalyzedJob lead v = Except.ok job) :
    pyDictGet v "score" (JsonVal.num 0) = Except.ok job.score := by
  cases v with
  | obj kvs =>
    rw [buildAnalyzedJob_obj] at h
    cases Except.ok.inj h
    rw [pyDictGet_obj]
  | null => exact absurd h (by simp [buildAnalyzedJob, pyDictGet, Bind.bind, Except.bind])
  | bool b => exact absurd h (by simp [buildAnalyzedJob, pyDictGet, Bind.bind, Except.bind])
  | num n => exact absurd h (by simp [buildAnalyzedJob, pyDictGet, Bind.bind, Except.bind])
  | str s => exact absurd h (by simp [buildAnalyzedJob, pyDictGet, Bind.bind, Except.bind])
  | arr xs => exact absurd h (by simp [buildAnalyzedJob, pyDictGet, Bind.bind, Except.bind])

/-- C8 amended. Whenever `analyze_and_qualify` returns a result, the result's
`score` field is the raw `score` value of the parsed model response (default 0
when absent), copied with no type or range validation; it lies in 0–100 only
when the model's value does. -/
theorem score_copied_unvalidated (modelInit : Bool) (lead : JobLead)
    (resume : String) (keywords : List String) (v : JsonVal) (job : AnalyzedJob)
    (h : (analyze_and_qualify modelInit lead resume keywords
        (ModelResponse.parsed v)).1 = some job) :
    pyDictGet v "score" (JsonVal.num 0) = Except.ok job.score := by
  cases modelInit
  · exact absurd h (by simp [analyze_and_qualify])
  · rw [aq_true_fst] at h
    split at h
    · exact absurd h (by simp)
    · have hh : handleResponse lead (ModelResponse.parsed v) = some job := h
      have hr : handleResponse lead (ModelResponse.parsed v) =
          match allKeysPresent v requiredKeys with
          | Except.error _ => none
          | Except.ok false => none
          | Except.ok true =>
            match buildAnalyzedJob lead v with
            | Except.error _ => none
            | Except.ok job => some job := rfl
      rw [hr] at hh
      rcases hak : allKeysPresent v requiredKeys with e | b
      · rw [hak] at hh
        exact absurd hh (by simp)
      · rw [hak] at hh
        cases b
        · exact absurd hh (by simp)
        · rcases hb : buildAnalyzedJob lead v with e | j
          · rw [hb] at hh
            exact absurd hh (by simp)
          · rw [hb] at hh
            rw [← Option.some.inj hh]
            exact buildAnalyzedJob_score lead v j hb

/-- C8 amended witness: the concrete out-of-range response is copied through. -/
theorem score_copied_unvalidated_witness :
    pyDictGet badScoreResponse "score" (JsonVal.num 0) = Except.ok wBadJob.score :=
  score_copied_unvalidated true wGoodLead "r" ["k"] badScoreResponse wBadJob rfl

/-- Invariant of the reddit inner loop: the picked submissions have pairwise
distinct ids, none of which was already seen; the outgoing seen set extends
the incoming one and covers every picked id. -/
theorem scanPosts_spec (posts : List Submission) :
    ∀ seen : List String,
      (∀ s ∈ (scanPosts posts seen).1, s.id ∉ seen) ∧
      ((scanPosts posts seen).1.map Submission.id).Pairwise (· ≠ ·) ∧
      (∀ x ∈ seen, x ∈ (scanPosts posts seen).2) ∧
      (∀ s ∈ (scanPosts posts seen).1, s.id ∈ (scanPosts posts seen).2) := by
  induction posts with
  | nil => intro seen; simp [scanPosts]
  | cons s rest ih =>
    intro seen
    by_cases h : s.id ∈ seen
    · simpa [scanPosts, h] using ih seen
    · obtain ⟨ih1, ih2, ih3, ih4⟩ := ih (s.id :: seen)
      simp only [scanPosts, if_neg h]
      refine ⟨?_, ?_, ?_, ?_⟩
      · intro t ht
        rcases List.mem_cons.mp ht with rfl | ht
        · exact h
        · exact fun hc => ih1 t ht (List.mem_cons_of_mem _ hc)
      · rw [List.map_cons, List.pairwise_cons]
        refine ⟨?_, ih2⟩
        intro b hb
        obtain ⟨t, ht, rfl⟩ := List.mem_map.mp hb
        intro hc
        exact ih1 t ht (by rw [← hc]; exact List.mem_cons_self _ _)
      · intro x hx
        exact ih3 x (List.mem_cons_of_mem _ hx)
      · intro t ht
        rcases List.mem_cons.mp ht with rfl | ht
        · exact ih3 t.id (List.mem_cons_self _ _)
        · exact ih4 t ht

/-- Invariant of the reddit outer loop: across subreddits the collected
submissions have pairwise distinct ids, none of which was already seen. -/
theorem scanSubreddits_spec (fetches : List SubredditFetch) :
    ∀ seen : List String,
      (∀ s ∈ scanSubreddits fetches seen, s.id ∉ seen) ∧
      ((scanSubreddits fetches seen).map Submission.id).Pairwise (· ≠ ·) := by
  induction fetches with
  | nil => intro seen; simp [scanSubreddits]
  | cons f rest ih =>
    intro seen
    cases f with
    | error e => simpa [scanSubreddits] using ih seen
    | ok posts =>
      obtain ⟨p1, p2, p3, p4⟩ := scanPosts_spec posts seen
      obtain ⟨ih1, ih2⟩ := ih (scanPosts posts seen).2
      simp only [scanSubreddits]
      constructor
      · intro t ht
        rcases List.mem_append.mp ht with ht | ht
        · exact p1 t ht
        · exact fun hc => ih1 t ht (p3 t.id hc)
      · rw [List.map_append, List.pairwise_append]
        refine ⟨p2, ih2, ?_⟩
        intro a ha b hb
        obtain ⟨ta, hta, rfl⟩ := List.mem_map.mp ha
        obtain ⟨tb, htb, rfl⟩ := List.mem_map.mp hb
        intro hc
        exact ih1 tb htb (by rw [← hc]; exact p4 ta hta)

/-- Invariant of the RSS inner loop: the picked leads have pairwise distinct
urls, none already seen; the outgoing seen set extends the incoming one and
covers every picked url. -/
theorem scanEntries_spec (source : String) (entries : List FeedEntry) :
    ∀ seen : List String,
      (∀ l ∈ (scanEntries source entries seen).1, l.url ∉ seen) ∧
      ((scanEntries source entries seen).1.map JobLead.url).Pairwise (· ≠ ·) ∧
      (∀ x ∈ seen, x ∈ (scanEntries source entries seen).2) ∧
      (∀ l ∈ (scanEntries source entries seen).1,
        l.url ∈ (scanEntries source entries seen).2) := by
  induction entries with
  | nil => intro seen; simp [scanEntries]
  | cons e rest ih =>
    intro seen
    by_cases h : e.link ∈ seen
    · simpa [scanEntries, h] using ih seen
    · obtain ⟨ih1, ih2, ih3, ih4⟩ := ih (e.link :: seen)
      simp only [scanEntries, if_neg h]
      have hurl : (mkRssLead source e).url = e.link := rfl
      refine ⟨?_, ?_, ?_, ?_⟩
      · intro t ht
        rcases List.mem_cons.mp ht with rfl | ht
        · rw [hurl]; exact h
        · exact fun hc => ih1 t ht (List.mem_cons_of_mem _ hc)
      · rw [List.map_cons, List.pairwise_cons]
        refine ⟨?_, ih2⟩
        intro b hb
        obtain ⟨t, ht, rfl⟩ := List.mem_map.mp hb
        rw [hurl]
        intro hc
        exact ih1 t ht (by rw [← hc]; exact List.mem_cons_self _ _)
      · intro x hx
        exact ih3 x (List.mem_cons_of_mem _ hx)
      · intro t ht
        rcases List.mem_cons.mp ht with rfl | ht
        · rw [hurl]; exact ih3 e.link (List.mem_cons_self _ _)
        · exact ih4 t ht

/-- Invariant of the RSS outer loop: across feeds the collected leads have
pairwise distinct urls, none of which was already seen. -/
theorem scanFeeds_spec (feeds : List Feed) :
    ∀ seen : List String,
      (∀ l ∈ scanFeeds feeds seen, l.url ∉ seen) ∧
      ((scanFeeds feeds seen).map JobLead.url).Pairwise (· ≠ ·) := by
  induction feeds with
  | nil => intro seen; simp [scanFeeds]
  | cons f rest ih =>
    intro seen
    obtain ⟨p1, p2, p3, p4⟩ := scanEntries_spec (sourceName f.url) f.entries seen
    obtain ⟨ih1, ih2⟩ := ih (scanEntries (sourceName f.url) f.entries seen).2
    simp only [scanFeeds]
    constructor
    · intro t ht
      rcases List.mem_append.mp ht with ht | ht
      · exact p1 t ht
      · exact fun hc => ih1 t ht (p3 t.url hc)
    · rw [List.map_append, List.pairwise_append]
      refine ⟨p2, ih2, ?_⟩
      intro a ha b hb
      obtain ⟨ta, hta, rfl⟩ := List.mem_map.mp ha
      obtain ⟨tb, htb, rfl⟩ := List.mem_map.mp hb
      intro hc
      exact ih1 tb htb (by rw [← hc]; exact p4 ta hta)

/-- C9. Within one `find_leads()` call, the forum source returns no two
elements with the same id and the feed source returns no two leads with the
same url, whatever the external origins yield. -/
theorem find_leads_dedup_within_call :
    (∀ (clientOk : Bool) (fetches : List SubredditFetch),
      ((RedditScout.find_leads clientOk fetches).map Submission.id).Pairwise (· ≠ ·)) ∧
    (∀ feeds : List Feed,
      ((RSSScout.find_leads feeds).map JobLead.url).Pairwise (· ≠ ·)) := by
  constructor
  · intro clientOk fetches
    cases clientOk
    · simp [RedditScout.find_leads]
    · simpa [RedditScout.find_leads] using (scanSubreddits_spec fetches []).2
  · intro feeds
    by_cases h : feeds.isEmpty
    · simp [RSSScout.find_leads, h]
    · simpa [RSSScout.find_leads, h] using (scanFeeds_spec feeds []).2

/-- Progress values distribute over trace concatenation. -/
theorem progressValues_append (l1 l2 : List Event) :
    progressValues (l1 ++ l2) = progressValues l1 ++ progressValues l2 := by
  simp [progressValues]

/-- A status emission adds no progress value. -/
theorem progressValues_status (s : String) (l : List Event) :
    progressValues (Event.status s :: l) = progressValues l := rfl

/-- An error emission adds no progress value. -/
theorem progressValues_error (m : String) (l : List Event) :
    progressValues (Event.errorSig m :: l) = progressValues l := rfl

/-- A progress emission records its value. -/
theorem progressValues_progress (p : Nat) (l : List Event) :
    progressValues (Event.progress p :: l) = p :: progressValues l := rfl

/-- A result emission adds no progress value. -/
theorem progressValues_jobEvents (r : Option AnalyzedJob) (l : List Event) :
    progressValues (jobEvents r ++ l) = progressValues l := by
  cases r <;> rfl

/-- The `finally` block contributes exactly the final `progress(100)`. -/
theorem progressValues_finallyEvents (c : Bool) :
    progressValues (finallyEvents c) = [100] := by
  cases c <;> rfl

/-- The scout phase emits status events only — in particular no progress. -/
theorem scoutPhase_no_progress (stopAt : Option Nat) :
    ∀ (scouts : List ScoutRun) (k : Nat),
      progressValues (scoutPhase stopAt scouts k).1 = [] := by
  intro scouts
  induction scouts with
  | nil => intro k; rfl
  | cons sc rest ih =>
    intro k
    by_cases h : flagAt stopAt k = true
    · simp only [scoutPhase, h, if_true]
      rw [progressValues_status]
      exact ih (k + 1)
    · simp only [scoutPhase, h, if_false]
      rfl

/-- The progress fraction is monotone in the number of processed leads. -/
theorem progressVal_mono (i total : Nat) :
    progressVal i total ≤ progressVal (i + 1) total :=
  Nat.div_le_div_right (Nat.mul_le_mul_right _ (by omega))

/-- The progress fraction never exceeds 100 while leads remain in range. -/
theorem progressVal_le_100 (i total : Nat) (h : i + 1 ≤ total) :
    progressVal i total ≤ 100 := by
  have h0 : 0 < total := by omega
  calc (i + 1) * 100 / total ≤ total * 100 / total :=
        Nat.div_le_div_right (Nat.mul_le_mul_right _ h)
    _ = 100 := Nat.mul_div_cancel_left 100 h0

/-- Progress invariant of the analysis loop: from lead index `i` with the
remaining leads in range, the emitted progress values form a non-decreasing
chain, all at least the current fraction and at most 100. -/
theorem analysisLoop_progress (stopAt : Option Nat) (base : Nat)
    (qualify : Nat → JobLead → QualifyOutcome) (total : Nat) :
    ∀ (leads : List JobLead) (i : Nat), i + leads.length ≤ total →
      List.Chain' (· ≤ ·)
        (progressValues (analysisLoop stopAt base total qualify leads i).1) ∧
      ∀ q ∈ progressValues (analysisLoop stopAt base total qualify leads i).1,
        progressVal i total ≤ q ∧ q ≤ 100 := by
  intro leads
  induction leads with
  | nil =>
    intro i h
    constructor
    · exact List.chain'_nil
    · intro q hq
      exact absurd hq (by simp [analysisLoop, progressValues])
  | cons lead rest ih =>
    intro i h
    have h1 : i + 1 ≤ total := by
      simp only [List.length_cons] at h
      omega
    have h2 : (i + 1) + rest.length ≤ total := by
      simp only [List.length_cons] at h
      omega
    by_cases hf : flagAt stopAt (base + i) = true
    · cases hq : qualify i lead with
      | raises msg =>
        simp only [analysisLoop, hf, if_true, hq]
        constructor
        · exact List.chain'_nil
        · intro q hqm
          exact absurd hqm (by simp [progressValues])
      | result r =>
        obtain ⟨ihc, ihb⟩ := ih (i + 1) h2
        simp only [analysisLoop, hf, if_true, hq]
        rw [progressValues_status, progressValues_jobEvents,
          progressValues_progress]
        constructor
        · rw [List.chain'_cons']
          refine ⟨?_, ihc⟩
          intro y hy
          exact le_trans (progressVal_mono i total)
            (ihb y (List.mem_of_mem_head? hy)).1
        · intro q hqm
          rcases List.mem_cons.mp hqm with rfl | hqm
          · exact ⟨le_refl _, progressVal_le_100 i total h1⟩
          · exact ⟨le_trans (progressVal_mono i total) (ihb q hqm).1,
              (ihb q hqm).2⟩
    · simp only [analysisLoop, hf, if_false]
      constructor
      · exact List.chain'_nil
      · intro q hqm
        exact absurd hqm (by simp [progressValues])

/-- The post-initialization part of a run emits progress values of the form
`qs ++ [100]` with `qs` a non-decreasing chain bounded by 100. -/
theorem scoutAndAnalyze_progress (stopAt : Option Nat) (scouts : List ScoutRun)
    (qualify : Nat → JobLead → QualifyOutcome) :
    ∃ qs : List Nat,
      progressValues (scoutAndAnalyze stopAt scouts qualify) = qs ++ [100] ∧
      List.Chain' (· ≤ ·) qs ∧ ∀ q ∈ qs, q ≤ 100 := by
  have hp := scoutPhase_no_progress stopAt scouts 0
  simp only [scoutAndAnalyze]
  rcases h2 : (scoutPhase stopAt scouts 0).2 with _ | allLeads
  · simp only [afterScouts]
    refine ⟨[], ?_, List.chain'_nil, by simp⟩
    rw [progressValues_append, hp, progressValues_finallyEvents]
  · simp only [afterScouts]
    by_cases hfl : flagAt stopAt scouts.length = true
    · rw [hfl, Bool.not_true, if_neg Bool.false_ne_true]
      by_cases he : allLeads.isEmpty = true
      · rw [if_pos he]
        refine ⟨[100], ?_, List.chain'_singleton 100, by simp⟩
        rw [progressValues_append, hp, List.nil_append]
        rfl
      · rw [if_neg he]
        obtain ⟨hc, hb⟩ := analysisLoop_progress stopAt (scouts.length + 1)
          qualify allLeads.length allLeads 0 (by omega)
        refine ⟨progressValues
          (analysisLoop stopAt (scouts.length + 1) allLeads.length qualify
            allLeads 0).1, ?_, hc, fun q hq => (hb q hq).2⟩
        simp only [progressValues_append, hp, progressValues_finallyEvents,
          List.nil_append]
    · have hflf : flagAt stopAt scouts.length = false := by
        cases hv : flagAt stopAt scouts.length
        · rfl
        · exact absurd hv hfl
      rw [hflf, Bool.not_false, if_pos rfl]
      refine ⟨[], ?_, List.chain'_nil, by simp⟩
      rw [progressValues_append, hp, progressValues_finallyEvents]

/-- A run's progress values have the form `0 :: qs ++ [100]` with `qs` a
non-decreasing chain bounded by 100. -/
theorem runEvents_progress_shape (stopAt : Option Nat) (scouts : List ScoutRun)
    (qualify : Nat → JobLead → QualifyOutcome) :
    ∃ qs : List Nat,
      progressValues (runEvents stopAt scouts qualify) = 0 :: (qs ++ [100]) ∧
      List.Chain' (· ≤ ·) qs ∧ ∀ q ∈ qs, q ≤ 100 := by
  simp only [runEvents]
  by_cases hse : scouts.isEmpty = true
  · rw [if_pos hse]
    exact ⟨[], rfl, List.chain'_nil, by simp⟩
  · rw [if_neg hse]
    obtain ⟨qs, heq, hc, hb⟩ := scoutAndAnalyze_progress stopAt scouts qualify
    refine ⟨qs, ?_, hc, hb⟩
    rw [progressValues_status, progressValues_progress, progressValues_status,
      progressValues_status, heq]

/-- C3. Within one accepted run (any stop schedule, scouts and qualifier
behaviour, hence any outcome — success, cancellation, run-level error or zero
leads), the emitted progress sequence starts at 0 (hence ≥ 0), is
non-decreasing, and its last value is exactly 100. -/
theorem progress_monotone_run (stopAt : Option Nat) (scouts : List ScoutRun)
    (qualify : Nat → JobLead → QualifyOutcome) :
    (progressValues (runScan false stopAt scouts qualify).1).head? = some 0 ∧
    (progressValues (runScan false stopAt scouts qualify).1).getLast? = some 100 ∧
    List.Chain' (· ≤ ·) (progressValues (runScan false stopAt scouts qualify).1) := by
  obtain ⟨qs, heq, hc, hb⟩ := runEvents_progress_shape stopAt scouts qualify
  have hrs : (runScan false stopAt scouts qualify).1
      = runEvents stopAt scouts qualify := rfl
  rw [hrs, heq]
  refine ⟨rfl, ?_, ?_⟩
  · rw [← List.cons_append]
    exact List.getLast?_concat _
  · rw [List.chain'_cons']
    constructor
    · intro y hy
      exact Nat.zero_le y
    · rw [List.chain'_append]
      refine ⟨hc, List.chain'_singleton 100, ?_⟩
      intro x hx y hy
      have hxm : x ∈ qs := List.mem_of_getLast?_eq_some hx
      have hy100 : y = 100 := by
        simp only [List.head?_cons, Option.mem_def, Option.some.injEq] at hy
        exact hy.symm
      rw [hy100]
      exact hb x hxm

/-- Result counts add over trace concatenation. -/
theorem countJobFound_append (l1 l2 : List Event) :
    countJobFound (l1 ++ l2) = countJobFound l1 + countJobFound l2 := by
  simp [countJobFound, List.filter_append]

/-- A status emission is not a result. -/
theorem countJobFound_status (s : String) (l : List Event) :
    countJobFound (Event.status s :: l) = countJobFound l := rfl

/-- A progress emission is not a result. -/
theorem countJobFound_progress (p : Nat) (l : List Event) :
    countJobFound (Event.progress p :: l) = countJobFound l := rfl

/-- One analysis step emits at most one result. -/
theorem countJobFound_jobEvents_le (r : Option AnalyzedJob) (l : List Event) :
    countJobFound (jobEvents r ++ l) ≤ countJobFound l + 1 := by
  cases r with
  | none => simp [jobEvents]
  | some job =>
    have : countJobFound (jobEvents (some job) ++ l) = countJobFound l + 1 := by
      simp [jobEvents, countJobFound, List.filter_cons, isJobFoundEv]
    omega

/-- The scout phase emits no results. -/
theorem scoutPhase_jobs (stopAt : Option Nat) :
    ∀ (scouts : List ScoutRun) (k : Nat),
      countJobFound (scoutPhase stopAt scouts k).1 = 0 := by
  intro scouts
  induction scouts with
  | nil => intro k; rfl
  | cons sc rest ih =>
    intro k
    by_cases h : flagAt stopAt k = true
    · simp only [scoutPhase, h, if_true]
      rw [countJobFound_status]
      exact ih (k + 1)
    · simp only [scoutPhase, h, if_false]
      rfl

/-- When the stop flag stays true throughout the scout loop, the loop
completes and collects exactly the merged leads in configured order. -/
theorem scoutPhase_leads (m : Nat) :
    ∀ (scouts : List ScoutRun) (k : Nat), k + scouts.length ≤ m →
      (scoutPhase (some m) scouts k).2 = some (mergedLeads scouts) := by
  intro scouts
  induction scouts with
  | nil => intro k h; rfl
  | cons sc rest ih =>
    intro k h
    have hk : k < m := by
      simp only [List.length_cons] at h
      omega
    have hflag : flagAt (some m) k = true := by
      simp [flagAt]
      omega
    simp only [scoutPhase, hflag, if_true]
    rw [ih (k + 1) (by simp only [List.length_cons] at h; omega)]
    simp [mergedLeads]

/-- With the stop landing at read index `base + k`, a loop that still has
more than `k - i` leads left breaks with `scan_cancelled` — provided every
qualification before the stop point completes. -/
theorem analysisLoop_cancelled (base k total : Nat)
    (qualify : Nat → JobLead → QualifyOutcome) :
    ∀ (leads : List JobLead) (i : Nat), i ≤ k → k - i < leads.length →
      (∀ j lead, j < k → (qualify j lead).isResult = true) →
      (analysisLoop (some (base + k)) base total qualify leads i).2
        = LoopEnd.cancelled := by
  intro leads
  induction leads with
  | nil =>
    intro i h1 h2 h3
    exact absurd h2 (by simp)
  | cons lead rest ih =>
    intro i h1 h2 h3
    by_cases hik : i < k
    · have hflag : flagAt (some (base + k)) (base + i) = true := by
        simp [flagAt]
        omega
      have hres := h3 i lead hik
      cases hq : qualify i lead with
      | raises msg =>
        rw [hq] at hres
        exact absurd hres (by simp [QualifyOutcome.isResult])
      | result r =>
        simp only [analysisLoop, hflag, if_true, hq]
        exact ih (i + 1) (by omega)
          (by simp only [List.length_cons] at h2; omega) h3
    · have hflag : flagAt (some (base + k)) (base + i) = false := by
        simp [flagAt]
        omega
      simp only [analysisLoop, hflag]
      rw [if_neg Bool.false_ne_true]

/-- With the stop landing at read index `base + k`, the analysis loop started
at index `i` emits at most `k - i` results. -/
theorem analysisLoop_jobs (base k total : Nat)
    (qualify : Nat → JobLead → QualifyOutcome) :
    ∀ (leads : List JobLead) (i : Nat),
      countJobFound (analysisLoop (some (base + k)) base total qualify leads i).1
        ≤ k - i := by
  intro leads
  induction leads with
  | nil =>
    intro i
    simp [analysisLoop, countJobFound]
  | cons lead rest ih =>
    intro i
    by_cases hik : i < k
    · have hflag : flagAt (some (base + k)) (base + i) = true := by
        simp [flagAt]
        omega
      cases hq : qualify i lead with
      | raises msg =>
        simp only [analysisLoop, hflag, if_true, hq]
        rw [show countJobFound [Event.status (analyzeMsg i total lead),
          Event.errorSig ("An error occurred during the scan: " ++ msg)] = 0 from rfl]
        exact Nat.zero_le _
      | result r =>
        simp only [analysisLoop, hflag, if_true, hq]
        rw [countJobFound_status]
        have hle := countJobFound_jobEvents_le r
          (Event.progress (progressVal i total)
            :: (analysisLoop (some (base + k)) base total qualify rest (i + 1)).1)
        rw [countJobFound_progress] at hle
        have hih := ih (i + 1)
        omega
    · have hflag : flagAt (some (base + k)) (base + i) = false := by
        simp [flagAt]
        omega
      simp only [analysisLoop, hflag, if_false]
      simp [countJobFound]

/-- C4. When `stop()` lands after the `k`-th lead's qualification completed
(stop flag observed false from read index `scouts.length + 1 + k` on), a run
with more than `k` merged leads emits at most `k` results, ends with the
cancellation status followed by the final `progress(100)` and the terminal
`finished`, and `stop` itself only clears the cooperative flag (the full
worker state after `stop` is exactly the cleared flag, so no in-flight call is
touched). -/
theorem stop_after_k_leads (scouts : List ScoutRun)
    (qualify : Nat → JobLead → QualifyOutcome) (k : Nat)
    (hs : scouts.isEmpty = false)
    (hk : k < (mergedLeads scouts).length)
    (hq : ∀ j lead, j < k → (qualify j lead).isResult = true) :
    countJobFound (runScan false (some (scouts.length + 1 + k)) scouts qualify).1 ≤ k ∧
    (∃ pre, (runScan false (some (scouts.length + 1 + k)) scouts qualify).1
      = pre ++ [Event.status "Scan cancelled.", Event.progress 100, Event.finished]) ∧
    ∀ s : WorkerState, Worker.stop s = { isRunning := false } := by
  have hrs : (runScan false (some (scouts.length + 1 + k)) scouts qualify).1
      = runEvents (some (scouts.length + 1 + k)) scouts qualify := rfl
  have hsp : (scoutPhase (some (scouts.length + 1 + k)) scouts 0).2
      = some (mergedLeads scouts) :=
    scoutPhase_leads (scouts.length + 1 + k) scouts 0 (by omega)
  have hfl : flagAt (some (scouts.length + 1 + k)) scouts.length = true := by
    simp [flagAt]
    omega
  have hne : (mergedLeads scouts).isEmpty = false := by
    cases hmm : mergedLeads scouts
    · rw [hmm] at hk
      simp at hk
    · rfl
  have hloopc : (analysisLoop (some (scouts.length + 1 + k)) (scouts.length + 1)
      (mergedLeads scouts).length qualify (mergedLeads scouts) 0).2
        = LoopEnd.cancelled :=
    analysisLoop_cancelled (scouts.length + 1) k (mergedLeads scouts).length
      qualify (mergedLeads scouts) 0 (Nat.zero_le k) (by omega) hq
  have hbody : runEvents (some (scouts.length + 1 + k)) scouts qualify
      = (Event.status "Starting scan..." :: Event.progress 0
          :: Event.status "Initializing agents..."
          :: Event.status "Searching for job leads from all sources..."
          :: ((scoutPhase (some (scouts.length + 1 + k)) scouts 0).1
            ++ (analysisLoop (some (scouts.length + 1 + k)) (scouts.length + 1)
                (mergedLeads scouts).length qualify (mergedLeads scouts) 0).1))
        ++ finallyEvents true := by
    simp only [runEvents]
    rw [if_neg (by rw [hs]; exact Bool.false_ne_true)]
    simp only [scoutAndAnalyze]
    rw [hsp]
    simp only [afterScouts]
    rw [hfl, Bool.not_true, if_neg Bool.false_ne_true, hne,
      if_neg Bool.false_ne_true, hloopc]
    simp only [LoopEnd.cancelledFlag]
    simp [List.cons_append, List.append_assoc]
  refine ⟨?_, ⟨Event.status "Starting scan..." :: Event.progress 0
      :: Event.status "Initializing agents..."
      :: Event.status "Searching for job leads from all sources..."
      :: ((scoutPhase (some (scouts.length + 1 + k)) scouts 0).1
        ++ (analysisLoop (some (scouts.length + 1 + k)) (scouts.length + 1)
            (mergedLeads scouts).length qualify (mergedLeads scouts) 0).1), ?_⟩,
    ?_⟩
  · rw [hrs, hbody]
    rw [countJobFound_append, countJobFound_status, countJobFound_progress,
      countJobFound_status, countJobFound_status, countJobFound_append,
      scoutPhase_jobs]
    have hloopj := analysisLoop_jobs (scouts.length + 1) k
      (mergedLeads scouts).length qualify (mergedLeads scouts) 0
    rw [show countJobFound (finallyEvents true) = 0 from rfl]
    omega
  · rw [hrs, hbody]
    rfl
  · intro s
    cases s
    rfl

/-- C4 witness: one scout with three merged leads, stop landing after the
first lead's qualification completes. -/
theorem stop_after_k_leads_witness :
    countJobFound (runScan false (some (wScouts.length + 1 + 1)) wScouts wQualify).1 ≤ 1 ∧
    (∃ pre, (runScan false (some (wScouts.length + 1 + 1)) wScouts wQualify).1
      = pre ++ [Event.status "Scan cancelled.", Event.progress 100, Event.finished]) ∧
    ∀ s : WorkerState, Worker.stop s = { isRunning := false } :=
  stop_after_k_leads wScouts wQualify 1 rfl (by decide) (fun _ _ _ => rfl)
